import Mathlib

/-!
Shallow embedding of the HarbourHub marketplace backend (Django project under
src/) for checking the natural-language specification against the code.

Every definition is translated from a concrete function of the repository;
the file comments name the source file and lines it embeds.  Machine-level
concerns (database engine, HTTP transport) are modelled as explicit state:
the relational store is a list of records, timestamps are natural numbers,
fallible request handlers return Except values.
-/

namespace HarbourHub

/-! ## String primitives

Kernel-computable models of the Python string operations the handlers use:
str.lower (ASCII case folding), str.strip, and the case-insensitive
substring test behind `icontains`. -/

def lowerChar (c : Char) : Char :=
  if 65 ≤ c.toNat ∧ c.toNat ≤ 90 then Char.ofNat (c.toNat + 32) else c

def strLower (s : String) : String :=
  ⟨s.data.map lowerChar⟩

def strTrim (s : String) : String :=
  ⟨((s.data.dropWhile Char.isWhitespace).reverse.dropWhile
      Char.isWhitespace).reverse⟩

def startsWithList : List Char → List Char → Bool
  | [], _ => true
  | _ :: _, [] => false
  | a :: as, b :: bs => a == b && startsWithList as bs

def containsList (needle : List Char) : List Char → Bool
  | [] => startsWithList needle []
  | b :: bs => startsWithList needle (b :: bs) || containsList needle bs

/-- Case-insensitive substring match, the `icontains` lookup of the ORM. -/
def icontains (haystack needle : String) : Bool :=
  containsList (strLower needle).data (strLower haystack).data

/-! ## Generic list helper lemmas (shared by several developments below) -/

theorem countP_mono_mem {α : Type} (p q : α → Bool) :
    ∀ (l : List α), (∀ a ∈ l, p a = true → q a = true) →
      l.countP p ≤ l.countP q := by
  intro l
  induction l with
  | nil => intro _; simp
  | cons x xs ih =>
    intro h
    rw [List.countP_cons, List.countP_cons]
    have hx := h x (by simp)
    have hxs := ih (fun a ha hp => h a (by simp [ha]) hp)
    by_cases hpx : p x = true
    · simp [hpx, hx hpx]; omega
    · simp at hpx
      simp [hpx]
      omega

theorem countP_map_eq {α β : Type} (f : α → β) (p : β → Bool) :
    ∀ (l : List α), (l.map f).countP p = l.countP (fun a => p (f a)) := by
  intro l
  induction l with
  | nil => simp
  | cons x xs ih =>
    simp only [List.map_cons, List.countP_cons, ih]

theorem countP_append_eq {α : Type} (p : α → Bool) (l₁ l₂ : List α) :
    (l₁ ++ l₂).countP p = l₁.countP p + l₂.countP p := by
  induction l₁ with
  | nil => simp
  | cons x xs ih => simp [List.countP_cons, ih]; omega

theorem countP_eq_zero_of_all_false {α : Type} (p : α → Bool) :
    ∀ (l : List α), (∀ a ∈ l, p a = false) → l.countP p = 0 := by
  intro l
  induction l with
  | nil => intro _; simp
  | cons x xs ih =>
    intro h
    rw [List.countP_cons]
    have hx := h x (by simp)
    have hxs := ih (fun a ha => h a (by simp [ha]))
    simp [hx, hxs]

theorem countP_congr_mem {α : Type} (p q : α → Bool) :
    ∀ (l : List α), (∀ a ∈ l, p a = q a) → l.countP p = l.countP q := by
  intro l
  induction l with
  | nil => intro _; simp
  | cons x xs ih =>
    intro h
    rw [List.countP_cons, List.countP_cons, h x (by simp),
      ih (fun a ha => h a (by simp [ha]))]

theorem map_id_of_all_false {α : Type} (p : α → Bool) (f : α → α) :
    ∀ (l : List α), (∀ a ∈ l, p a = false) →
      l.map (fun a => if p a then f a else a) = l := by
  intro l
  induction l with
  | nil => intro _; simp
  | cons x xs ih =>
    intro h
    have hx := h x (by simp)
    have hxs := ih (fun a ha => h a (by simp [ha]))
    simp [hx, hxs]

/-! ## Inquiry status state machine

Embeds apps/inquiries/models.py (Inquiry.mark_as_read lines 124-130,
Inquiry.mark_as_replied lines 132-138, InquiryReply.save lines 176-179) and
apps/inquiries/views.py (InquiryViewSet.retrieve lines 87-96, reply lines
136-159, mark_spam lines 161-181).  Timestamps are naturals; a missing
timestamp is none. -/

inductive InquiryStatus
  | pending
  | read
  | replied
  | closed
  | spam
deriving DecidableEq, Repr

structure InquiryState where
  status : InquiryStatus
  readAt : Option Nat
  repliedAt : Option Nat
deriving DecidableEq, Repr

namespace Inquiry

/-- Embeds Inquiry.is_read (models.py lines 116-118): read_at is not None. -/
def is_read (i : InquiryState) : Bool := i.readAt.isSome

/-- Embeds Inquiry.is_replied (models.py lines 120-122). -/
def is_replied (i : InquiryState) : Bool := i.repliedAt.isSome

/-- Embeds Inquiry.mark_as_read (models.py lines 124-130): if not yet read,
stamp read_at and set status to read. -/
def mark_as_read (i : InquiryState) (now : Nat) : InquiryState :=
  if is_read i then i
  else { i with readAt := some now, status := .read }

/-- Embeds Inquiry.mark_as_replied (models.py lines 132-138): if not yet
replied, stamp replied_at and set status to replied. -/
def mark_as_replied (i : InquiryState) (now : Nat) : InquiryState :=
  if is_replied i then i
  else { i with repliedAt := some now, status := .replied }

end Inquiry

/-- Embeds InquiryViewSet.retrieve (views.py lines 87-96) for a request made
by the recipient: if the requester is to_user and the inquiry is not read,
mark it as read (the mark_as_read guard repeats the check). -/
def inquiryRetrieveByRecipient (i : InquiryState) (now : Nat) : InquiryState :=
  if ¬ Inquiry.is_read i then Inquiry.mark_as_read i now else i

/-- Embeds the reply action (views.py lines 136-159): creating the
InquiryReply runs InquiryReply.save (models.py lines 176-179), which calls
mark_as_replied on the parent inquiry. -/
def inquiryReply (i : InquiryState) (now : Nat) : InquiryState :=
  Inquiry.mark_as_replied i now

/-- Embeds the mark_spam action (views.py lines 161-181): sets status to
spam unconditionally (recipient check is a precondition of the call). -/
def inquiryMarkSpam (i : InquiryState) : InquiryState :=
  { i with status := .spam }

/-- One recipient-side operation of the inquiry workflow. -/
inductive InquiryOp
  | retrieve (now : Nat)
  | reply (now : Nat)
  | markSpam
deriving DecidableEq, Repr

def applyInquiryOp (i : InquiryState) : InquiryOp → InquiryState
  | .retrieve now => inquiryRetrieveByRecipient i now
  | .reply now => inquiryReply i now
  | .markSpam => inquiryMarkSpam i

def applyInquiryOps (i : InquiryState) (ops : List InquiryOp) : InquiryState :=
  ops.foldl applyInquiryOp i

theorem inquiry_status_aux (ops : List InquiryOp) :
    ∀ i : InquiryState, i.readAt ≠ none → i.status ≠ .read →
      (applyInquiryOps i ops).readAt ≠ none ∧
      (applyInquiryOps i ops).status ≠ .read := by
  induction ops with
  | nil => intro i h1 h2; exact ⟨h1, h2⟩
  | cons op rest ih =>
    intro i h1 h2
    have hstep : (applyInquiryOp i op).readAt ≠ none ∧
        (applyInquiryOp i op).status ≠ .read := by
      cases op with
      | retrieve now =>
        have : Inquiry.is_read i = true := by
          unfold Inquiry.is_read
          cases h : i.readAt with
          | none => exact absurd h h1
          | some t => simp
        simp [applyInquiryOp, inquiryRetrieveByRecipient, this, h1, h2]
      | reply now =>
        by_cases hr : Inquiry.is_replied i = true
        · simp [applyInquiryOp, inquiryReply, Inquiry.mark_as_replied, hr,
            h1, h2]
        · simp at hr
          simp [applyInquiryOp, inquiryReply, Inquiry.mark_as_replied, hr, h1]
      | markSpam =>
        simp [applyInquiryOp, inquiryMarkSpam, h1]
    have : applyInquiryOps i (op :: rest)
        = applyInquiryOps (applyInquiryOp i op) rest := rfl
    rw [this]
    exact ih (applyInquiryOp i op) hstep.1 hstep.2

/-- C4 counterexample: the claim that once an inquiry has status replied it
never reverts to read is false.  Start from a fresh inquiry (status pending,
no timestamps); the recipient replies without retrieving first, so status
becomes replied while read_at stays unset; the subsequent retrieval by the
recipient passes the guard of mark_as_read (which checks read_at, not
status) and moves the status back to read. -/
theorem inquiry_replied_reverts_to_read_cex :
    (applyInquiryOps ⟨.pending, none, none⟩ [.reply 5]).status = .replied ∧
    (applyInquiryOps ⟨.pending, none, none⟩
        [.reply 5, .retrieve 6]).status = .read := by
  constructor <;> rfl

/-- C4 (amended): once an inquiry has been read (read_at is set) and its
status is replied, no later sequence of recipient retrievals, replies, or
mark_spam operations ever moves the status back to read. -/
theorem inquiry_replied_never_reverts_once_read (i : InquiryState)
    (h1 : i.readAt ≠ none) (h2 : i.status = .replied)
    (ops : List InquiryOp) :
    (applyInquiryOps i ops).status ≠ .read := by
  exact (inquiry_status_aux ops i h1 (by rw [h2]; intro h; cases h)).2

/-- Witness for C4 amended theorem at a concrete inquiry and op sequence. -/
theorem inquiry_replied_never_reverts_once_read_witness :
    (applyInquiryOps ⟨.replied, some 1, some 2⟩
        [.retrieve 9, .markSpam, .reply 10]).status ≠ .read :=
  inquiry_replied_never_reverts_once_read ⟨.replied, some 1, some 2⟩
    (by intro h; cases h) rfl [.retrieve 9, .markSpam, .reply 10]

/-! ## Reported-content moderation

Embeds apps/admin_panel/models.py (ReportedContent lines 11-69,
AdminActionLog.log_action lines 90-97) and apps/admin_panel/views.py
(ReportedContentViewSet.resolve lines 73-93, dismiss lines 99-120). -/

inductive ReportStatus
  | pending
  | reviewed
  | resolved
  | dismissed
deriving DecidableEq, Repr

structure Report where
  status : ReportStatus
  reviewedBy : Option Nat
  reviewedAt : Option Nat
  adminNotes : String
deriving DecidableEq, Repr

inductive ActionType
  | content_reviewed
  | user_verified
  | bulk_action_performed
deriving DecidableEq, Repr

structure AdminLogEntry where
  adminUser : Option Nat
  actionType : ActionType
deriving DecidableEq, Repr

namespace ReportedContent

/-- Embeds ReportedContent.mark_as_reviewed (admin_panel/models.py lines
62-69): sets status to reviewed, stamps reviewer, timestamp, and notes, and
persists exactly those fields. -/
def mark_as_reviewed (r : Report) (adminUser now : Nat) (notes : String) :
    Report :=
  { r with
    status := .reviewed
    reviewedBy := some adminUser
    reviewedAt := some now
    adminNotes := notes }

end ReportedContent

/-- Embeds ReportedContentViewSet.resolve (admin_panel/views.py lines
73-93): assigns status resolved to the in-memory instance, then calls
mark_as_reviewed (which overwrites status and saves), then appends one
AdminActionLog entry tagged content_reviewed. -/
def reportResolve (r : Report) (adminUser now : Nat) (notes : String) :
    Report × AdminLogEntry :=
  let r := { r with status := .resolved }
  let r := ReportedContent.mark_as_reviewed r adminUser now notes
  (r, { adminUser := some adminUser, actionType := .content_reviewed })

/-- Embeds ReportedContentViewSet.dismiss (admin_panel/views.py lines
99-120): assigns status dismissed to the in-memory instance, then calls
mark_as_reviewed, then appends one AdminActionLog entry. -/
def reportDismiss (r : Report) (adminUser now : Nat) (notes : String) :
    Report × AdminLogEntry :=
  let r := { r with status := .dismissed }
  let r := ReportedContent.mark_as_reviewed r adminUser now notes
  (r, { adminUser := some adminUser, actionType := .content_reviewed })

/-- C3: after the resolve action the persisted status of the report is
reviewed, not resolved, and after dismiss it is likewise reviewed, not
dismissed — mark_as_reviewed overwrites the status assigned by the view
before saving.  The reviewer and review timestamp are stamped as claimed. -/
theorem report_resolve_dismiss_persist_reviewed (r : Report)
    (adminUser now : Nat) (notes : String) :
    (reportResolve r adminUser now notes).1.status = .reviewed ∧
    (reportResolve r adminUser now notes).1.status ≠ .resolved ∧
    (reportDismiss r adminUser now notes).1.status = .reviewed ∧
    (reportDismiss r adminUser now notes).1.status ≠ .dismissed ∧
    (reportResolve r adminUser now notes).1.reviewedBy = some adminUser ∧
    (reportResolve r adminUser now notes).1.reviewedAt = some now ∧
    (reportDismiss r adminUser now notes).1.reviewedBy = some adminUser ∧
    (reportDismiss r adminUser now notes).1.reviewedAt = some now := by
  refine ⟨rfl, ?_, rfl, ?_, rfl, rfl, rfl, rfl⟩ <;> intro h <;> cases h

/-! ## Listing data model

Embeds apps/listings/models.py (Listing, lines 11-177).  Only the columns
the verified claims touch are carried; the store is the list of listing
rows, keyed by pk. -/

inductive ListingStatus
  | draft
  | published
  | archived
  | flagged
  | suspended
deriving DecidableEq, Repr

structure Listing where
  pk : Nat
  userId : Nat
  status : ListingStatus
  featured : Bool
  viewsCount : Nat
  inquiriesCount : Nat
  expiresAt : Option Nat
  title : String := ""
  description : String := ""
  manufacturer : String := ""
  model : String := ""
  location : String := ""
deriving DecidableEq, Repr

abbrev ListingStore := List Listing

/-- Looks up a row by primary key, as the ORM does for
`Listing.objects.filter(pk=...)` on a single row. -/
def getListing (store : ListingStore) (pk : Nat) : Option Listing :=
  match store with
  | [] => none
  | x :: xs => if x.pk == pk then some x else getListing xs pk

/-- Writes a saved instance back to the store: an existing row with the same
pk is replaced (UPDATE), otherwise the row is appended (INSERT). -/
def putListing (store : ListingStore) (l : Listing) : ListingStore :=
  if store.any (fun x => x.pk == l.pk) then
    store.map (fun x => if x.pk == l.pk then l else x)
  else store ++ [l]

/-- Row filter of _unset_other_featured_for_user: the listing belongs to
the user, is featured, and is not the excluded pk. -/
def unsetCond (userId : Nat) (excludePk : Option Nat) (x : Listing) : Bool :=
  x.userId == userId && x.featured
    && (match excludePk with
        | some pk => !(x.pk == pk)
        | none => true)

/-- Embeds _unset_other_featured_for_user (apps/listings/serializers.py
lines 20-28): one UPDATE clearing featured on every listing of the user,
optionally excluding one pk. -/
def unset_other_featured_for_user (store : ListingStore) (userId : Nat)
    (excludePk : Option Nat) : ListingStore :=
  store.map (fun x =>
    if unsetCond userId excludePk x then { x with featured := false } else x)

namespace Listing

/-- Embeds Listing.save (models.py lines 155-177), restricted to the
columns modelled here: when the saved instance is featured, one UPDATE first
clears featured on every other listing of the same user (lines 172-175);
then the instance row is written. -/
def save (store : ListingStore) (l : Listing) : ListingStore :=
  let store :=
    if l.featured then
      unset_other_featured_for_user store l.userId (some l.pk)
    else store
  putListing store l

/-- Embeds Listing.increment_views (models.py lines 133-140): a store-level
relative UPDATE `views_count = F(views_count) + 1` on the row with this pk;
the incremented value is read from the store, not from the instance. -/
def increment_views (store : ListingStore) (pk : Nat) : ListingStore :=
  store.map (fun l =>
    if l.pk == pk then { l with viewsCount := l.viewsCount + 1 } else l)

/-- Embeds Listing.increment_inquiries (models.py lines 142-148): a
store-level relative UPDATE `inquiries_count = F(inquiries_count) + 1`. -/
def increment_inquiries (store : ListingStore) (pk : Nat) : ListingStore :=
  store.map (fun l =>
    if l.pk == pk then { l with inquiriesCount := l.inquiriesCount + 1 }
    else l)

end Listing

/-- Embeds ListingCreateUpdateSerializer.create (serializers.py lines
223-241): the row is created with featured popped from the payload (so
initially false); if the request asked for featured, the instance is then
saved with featured true (Listing.save clears the others) and
_unset_other_featured_for_user is called once more excluding the new pk. -/
def listingSerializerCreate (store : ListingStore) (owner pk : Nat)
    (featuredFlag : Bool) (status : ListingStatus) : ListingStore :=
  let l : Listing :=
    { pk := pk, userId := owner, status := status, featured := false,
      viewsCount := 0, inquiriesCount := 0, expiresAt := none }
  let store := Listing.save store l
  if featuredFlag then
    let l := { l with featured := true }
    let store := Listing.save store l
    unset_other_featured_for_user store owner (some pk)
  else store

/-- Embeds ListingCreateUpdateSerializer.update (serializers.py lines
243-265): attributes are set on the instance and the instance saved
(Listing.save clears other featured rows whenever the instance is
featured); if the payload set featured truthy, _unset_other_featured_for_user
runs once more.  The same shape embeds ListingStatusUpdateSerializer.update
(lines 292-313) for the modelled columns. -/
def listingSerializerUpdate (store : ListingStore) (inst : Listing)
    (featuredFlag : Option Bool) : ListingStore :=
  let inst :=
    match featuredFlag with
    | some b => { inst with featured := b }
    | none => inst
  let store := Listing.save store inst
  if featuredFlag = some true then
    unset_other_featured_for_user store inst.userId (some inst.pk)
  else store

/-- One listing write operation of the kinds the featured invariant ranges
over: serializer create, serializer update of an existing row, or a direct
model-layer save. -/
inductive ListingOp
  | create (owner pk : Nat) (featuredFlag : Bool) (status : ListingStatus)
  | update (pk : Nat) (featuredFlag : Option Bool)
  | save (l : Listing)
deriving DecidableEq, Repr

def applyListingOp (store : ListingStore) : ListingOp → ListingStore
  | .create owner pk f st => listingSerializerCreate store owner pk f st
  | .update pk f =>
    match getListing store pk with
    | some inst => listingSerializerUpdate store inst f
    | none => store
  | .save l => Listing.save store l

def applyListingOps (store : ListingStore) (ops : List ListingOp) :
    ListingStore :=
  ops.foldl applyListingOp store

/-- Number of featured listings a user owns in the store. -/
def featuredCount (store : ListingStore) (u : Nat) : Nat :=
  store.countP (fun x => x.userId == u && x.featured)

/-- The featured-slot invariant: at most one featured listing per user. -/
def atMostOneFeatured (store : ListingStore) : Prop :=
  ∀ u, featuredCount store u ≤ 1

/-- Primary keys are unique in the store (database primary-key contract). -/
def pkUnique (store : ListingStore) : Prop :=
  ∀ pk, store.countP (fun x => x.pk == pk) ≤ 1

/-! ### Featured-slot invariant (C1) -/

theorem unset_clears (store : ListingStore) (u pk : Nat) :
    ∀ x ∈ unset_other_featured_for_user store u (some pk),
      (x.userId == u && x.featured) = true → (x.pk == pk) = true := by
  intro x hx hp
  unfold unset_other_featured_for_user at hx
  rw [List.mem_map] at hx
  obtain ⟨y, hy, hfy⟩ := hx
  by_cases hc : unsetCond u (some pk) y = true
  · rw [if_pos hc] at hfy
    rw [← hfy] at hp
    simp at hp
  · rw [if_neg hc] at hfy
    subst hfy
    cases hq : (y.pk == pk) with
    | true => rfl
    | false =>
      exfalso
      apply hc
      simp only [unsetCond]
      rw [hp, hq]
      rfl

theorem unset_countP_le (store : ListingStore) (u : Nat)
    (excl : Option Nat) (v : Nat) :
    (unset_other_featured_for_user store u excl).countP
        (fun x => x.userId == v && x.featured)
      ≤ store.countP (fun x => x.userId == v && x.featured) := by
  unfold unset_other_featured_for_user
  rw [countP_map_eq]
  apply countP_mono_mem
  intro a _ hpa
  by_cases hc : unsetCond u excl a = true
  · rw [if_pos hc] at hpa
    simp at hpa
  · rwa [if_neg hc] at hpa

theorem unset_pk_countP (store : ListingStore) (u : Nat)
    (excl : Option Nat) (q : Nat) :
    (unset_other_featured_for_user store u excl).countP (fun x => x.pk == q)
      = store.countP (fun x => x.pk == q) := by
  unfold unset_other_featured_for_user
  rw [countP_map_eq]
  apply countP_congr_mem
  intro a _
  by_cases hc : unsetCond u excl a = true
  · rw [if_pos hc]
  · rw [if_neg hc]

theorem putListing_pk_countP (store : ListingStore) (l : Listing)
    (q : Nat) :
    (putListing store l).countP (fun x => x.pk == q)
      ≤ max 1 (store.countP (fun x => x.pk == q)) := by
  unfold putListing
  by_cases hany : store.any (fun x => x.pk == l.pk) = true
  · rw [if_pos hany, countP_map_eq]
    have : store.countP (fun x => (if x.pk == l.pk then l else x).pk == q)
        = store.countP (fun x => x.pk == q) := by
      apply countP_congr_mem
      intro a _
      by_cases hc : (a.pk == l.pk) = true
      · rw [if_pos hc]
        simp only [beq_iff_eq] at hc ⊢
        rw [hc]
      · rw [if_neg hc]
    rw [this]
    exact le_max_right _ _
  · rw [if_neg hany, countP_append_eq]
    have hall : ∀ x ∈ store, (x.pk == l.pk) = false := by
      intro x hx
      cases h : (x.pk == l.pk) with
      | true => exact absurd (List.any_eq_true.mpr ⟨x, hx, h⟩) hany
      | false => rfl
    by_cases hq : (l.pk == q) = true
    · have : store.countP (fun x => x.pk == q) = 0 := by
        apply countP_eq_zero_of_all_false
        intro a ha
        simp only [beq_iff_eq] at hq
        rw [← hq]
        exact hall a ha
      rw [this]
      simp [List.countP_cons, hq]
    · have hq' : (l.pk == q) = false := by
        cases h : (l.pk == q) with
        | true => exact absurd h hq
        | false => rfl
      simp [List.countP_cons, hq']

theorem putListing_countP_le (store : ListingStore) (l : Listing)
    (p : Listing → Bool) (hl : p l = false) :
    (putListing store l).countP p ≤ store.countP p := by
  unfold putListing
  by_cases hany : store.any (fun x => x.pk == l.pk) = true
  · rw [if_pos hany, countP_map_eq]
    apply countP_mono_mem
    intro a _ hpa
    by_cases hc : (a.pk == l.pk) = true
    · rw [if_pos hc] at hpa
      rw [hpa] at hl
      cases hl
    · rwa [if_neg hc] at hpa
  · rw [if_neg hany, countP_append_eq]
    simp [List.countP_cons, hl]

theorem putListing_mem (store : ListingStore) (l : Listing) :
    ∀ x ∈ putListing store l, x = l ∨ (x ∈ store ∧ (x.pk == l.pk) = false) := by
  intro x hx
  unfold putListing at hx
  by_cases hany : store.any (fun y => y.pk == l.pk) = true
  · rw [if_pos hany, List.mem_map] at hx
    obtain ⟨y, hy, hfy⟩ := hx
    by_cases hc : (y.pk == l.pk) = true
    · rw [if_pos hc] at hfy
      exact Or.inl hfy.symm
    · rw [if_neg hc] at hfy
      subst hfy
      exact Or.inr ⟨hy, Bool.eq_false_iff.mpr hc⟩
  · rw [if_neg hany, List.mem_append] at hx
    rcases hx with hx | hx
    · refine Or.inr ⟨hx, ?_⟩
      cases h : (x.pk == l.pk) with
      | true => exact absurd (List.any_eq_true.mpr ⟨x, hx, h⟩) hany
      | false => rfl
    · simp at hx
      exact Or.inl hx

theorem save_preserves (store : ListingStore) (l : Listing)
    (hpk : pkUnique store) (hinv : atMostOneFeatured store) :
    pkUnique (Listing.save store l) ∧
    atMostOneFeatured (Listing.save store l) := by
  unfold Listing.save
  by_cases hf : l.featured = true
  · rw [if_pos hf]
    set store₁ := unset_other_featured_for_user store l.userId (some l.pk)
      with hstore₁
    have hpk₁ : pkUnique store₁ := by
      intro q
      rw [hstore₁, unset_pk_countP]
      exact hpk q
    have hpk' : pkUnique (putListing store₁ l) := by
      intro q
      calc (putListing store₁ l).countP (fun x => x.pk == q)
          ≤ max 1 (store₁.countP (fun x => x.pk == q)) :=
            putListing_pk_countP _ _ _
        _ ≤ 1 := max_le (le_refl 1) (hpk₁ q)
    refine ⟨hpk', ?_⟩
    intro v
    by_cases hv : v = l.userId
    · have hclear : ∀ x ∈ putListing store₁ l,
          (x.userId == v && x.featured) = true → (x.pk == l.pk) = true := by
        intro x hx hp
        rw [hv] at hp
        rcases putListing_mem store₁ l x hx with hxl | ⟨hxs, _⟩
        · subst hxl
          simp
        · exact unset_clears store l.userId l.pk x hxs hp
      calc (putListing store₁ l).countP (fun x => x.userId == v && x.featured)
          ≤ (putListing store₁ l).countP (fun x => x.pk == l.pk) :=
            countP_mono_mem _ _ _ hclear
        _ ≤ 1 := hpk' l.pk
    · have hlv : (l.userId == v && l.featured) = false := by
        have huv : (l.userId == v) = false :=
          beq_eq_false_iff_ne.mpr (fun h => hv h.symm)
        rw [huv]
        rfl
      calc (putListing store₁ l).countP (fun x => x.userId == v && x.featured)
          ≤ store₁.countP (fun x => x.userId == v && x.featured) :=
            putListing_countP_le _ _ _ hlv
        _ ≤ store.countP (fun x => x.userId == v && x.featured) :=
            unset_countP_le _ _ _ _
        _ ≤ 1 := hinv v
  · rw [if_neg hf]
    have hpk' : pkUnique (putListing store l) := by
      intro q
      calc (putListing store l).countP (fun x => x.pk == q)
          ≤ max 1 (store.countP (fun x => x.pk == q)) :=
            putListing_pk_countP _ _ _
        _ ≤ 1 := max_le (le_refl 1) (hpk q)
    refine ⟨hpk', ?_⟩
    intro v
    have hlv : (l.userId == v && l.featured) = false := by
      have : l.featured = false := Bool.eq_false_iff.mpr hf
      rw [this]
      exact Bool.and_false _
    calc (putListing store l).countP (fun x => x.userId == v && x.featured)
        ≤ store.countP (fun x => x.userId == v && x.featured) :=
          putListing_countP_le _ _ _ hlv
      _ ≤ 1 := hinv v

theorem unset_preserves (store : ListingStore) (u : Nat) (excl : Option Nat)
    (hpk : pkUnique store) (hinv : atMostOneFeatured store) :
    pkUnique (unset_other_featured_for_user store u excl) ∧
    atMostOneFeatured (unset_other_featured_for_user store u excl) := by
  constructor
  · intro q
    rw [unset_pk_countP]
    exact hpk q
  · intro v
    exact le_trans (unset_countP_le store u excl v) (hinv v)

theorem op_preserves (store : ListingStore) (op : ListingOp)
    (hpk : pkUnique store) (hinv : atMostOneFeatured store) :
    pkUnique (applyListingOp store op) ∧
    atMostOneFeatured (applyListingOp store op) := by
  cases op with
  | create owner pk f st =>
    simp only [applyListingOp, listingSerializerCreate]
    have h1 := save_preserves store
      { pk := pk, userId := owner, status := st, featured := false,
        viewsCount := 0, inquiriesCount := 0, expiresAt := none } hpk hinv
    by_cases hfl : f = true
    · rw [if_pos hfl]
      have h2 := save_preserves _
        { pk := pk, userId := owner, status := st, featured := true,
          viewsCount := 0, inquiriesCount := 0, expiresAt := none }
        h1.1 h1.2
      exact unset_preserves _ _ _ h2.1 h2.2
    · rw [if_neg hfl]
      exact h1
  | update pk f =>
    simp only [applyListingOp]
    cases hg : getListing store pk with
    | none => exact ⟨hpk, hinv⟩
    | some inst =>
      simp only [listingSerializerUpdate]
      have h1 := save_preserves store
        (match f with | some b => { inst with featured := b } | none => inst)
        hpk hinv
      by_cases hfl : f = some true
      · rw [if_pos hfl]
        exact unset_preserves _ _ _ h1.1 h1.2
      · rw [if_neg hfl]
        exact h1
  | save l => exact save_preserves store l hpk hinv

theorem ops_preserve (ops : List ListingOp) :
    ∀ store : ListingStore, pkUnique store → atMostOneFeatured store →
      pkUnique (applyListingOps store ops) ∧
      atMostOneFeatured (applyListingOps store ops) := by
  induction ops with
  | nil => intro store hpk hinv; exact ⟨hpk, hinv⟩
  | cons op rest ih =>
    intro store hpk hinv
    have h := op_preserves store op hpk hinv
    exact ih (applyListingOp store op) h.1 h.2

theorem save_featured_clears (store : ListingStore) (l : Listing)
    (hf : l.featured = true) :
    ∀ x ∈ Listing.save store l,
      (x.userId == l.userId && x.featured) = true → x.pk = l.pk := by
  unfold Listing.save
  rw [if_pos hf]
  intro x hx hp
  rcases putListing_mem _ l x hx with hxl | ⟨hxs, _⟩
  · rw [hxl]
  · exact beq_iff_eq.mp (unset_clears store l.userId l.pk x hxs hp)

/-- C1: starting from a store whose primary keys are unique and in which
every user owns at most one featured listing, any sequence of serializer
creates, serializer updates, and model saves keeps at most one featured
listing per user; moreover any model save with featured true leaves the
saved pk as the only featured listing of that owner, and a serializer
create with featured true does the same for the created pk. -/
theorem listings_featured_exclusive (init : ListingStore)
    (hpk : pkUnique init) (hinv : atMostOneFeatured init)
    (ops : List ListingOp) :
    atMostOneFeatured (applyListingOps init ops) ∧
    (∀ (s : ListingStore) (l : Listing), l.featured = true →
      ∀ x ∈ Listing.save s l,
        (x.userId == l.userId && x.featured) = true → x.pk = l.pk) ∧
    (∀ (s : ListingStore) (owner pk : Nat) (st : ListingStatus),
      ∀ x ∈ listingSerializerCreate s owner pk true st,
        (x.userId == owner && x.featured) = true → x.pk = pk) := by
  refine ⟨(ops_preserve ops init hpk hinv).2, save_featured_clears, ?_⟩
  intro s owner pk st x hx hp
  simp only [listingSerializerCreate, if_pos] at hx
  exact beq_iff_eq.mp (unset_clears _ owner pk x hx hp)

/-- Witness for C1 at a concrete store and operation sequence: two creates
for the same owner, both requesting featured. -/
theorem listings_featured_exclusive_witness :
    atMostOneFeatured (applyListingOps []
      [.create 1 1 true .published, .create 1 2 true .published]) :=
  (listings_featured_exclusive []
    (by intro pk; simp [List.countP_nil])
    (by intro u; simp [featuredCount, List.countP_nil])
    [.create 1 1 true .published, .create 1 2 true .published]).1

/-! ### Listing retrieve and view counting (C6)

Embeds ListingViewSet.retrieve (apps/listings/views.py lines 84-118):
for a published listing, a synchronous store-level increment of views_count
and one enqueued record-listing-view job; for a non-published listing
(visible to its owner via the retrieve queryset) neither happens. -/

theorem find?_update_at (pk : Nat) (f : Listing → Listing)
    (hf : ∀ l, (f l).pk = l.pk) :
    ∀ store : ListingStore,
      getListing (store.map (fun l => if l.pk == pk then f l else l)) pk
        = (getListing store pk).map f := by
  intro store
  induction store with
  | nil => rfl
  | cons x xs ih =>
    by_cases hx : (x.pk == pk) = true
    · have hfx : ((f x).pk == pk) = true := by
        rw [hf x]
        exact hx
      simp [getListing, hx, hfx]
    · have hx' : (x.pk == pk) = false := Bool.eq_false_iff.mpr hx
      simpa [getListing, hx'] using ih

/-- Payload of a record-listing-view job enqueued by the retrieve handler
(views.py lines 99-104). -/
structure ViewJob where
  listingId : Nat
  userId : Option Nat
  ipAddress : String
  userAgent : String
deriving DecidableEq, Repr

/-- Embeds ListingViewSet.retrieve (views.py lines 84-118): when the fetched
instance is published, run Listing.increment_views (a store-level relative
UPDATE keyed only by pk) and enqueue exactly one record-listing-view job;
otherwise return the store untouched with no job. -/
def listingRetrieve (store : ListingStore) (inst : Listing)
    (uid : Option Nat) (ip ua : String) : ListingStore × List ViewJob :=
  if inst.status = .published then
    (Listing.increment_views store inst.pk,
     [{ listingId := inst.pk, userId := uid, ipAddress := ip,
        userAgent := ua }])
  else (store, [])

/-- C6: retrieving a published listing bumps the stored views_count of that
pk by exactly one — computed from the value in the store, so the outcome is
the same whatever (possibly stale) views_count the in-memory instance
carries — and enqueues exactly one view-fact job; retrieving a
non-published listing leaves the store unchanged and enqueues nothing. -/
theorem listing_retrieve_views (store : ListingStore) (inst : Listing)
    (uid : Option Nat) (ip ua : String) :
    (inst.status = .published →
      getListing (listingRetrieve store inst uid ip ua).1 inst.pk
        = (getListing store inst.pk).map
            (fun l => { l with viewsCount := l.viewsCount + 1 }) ∧
      (listingRetrieve store inst uid ip ua).2
        = [{ listingId := inst.pk, userId := uid, ipAddress := ip,
             userAgent := ua }]) ∧
    (∀ m, listingRetrieve store { inst with viewsCount := m } uid ip ua
        = listingRetrieve store inst uid ip ua) ∧
    (inst.status ≠ .published →
      listingRetrieve store inst uid ip ua = (store, [])) := by
  refine ⟨?_, ?_, ?_⟩
  · intro h
    unfold listingRetrieve
    rw [if_pos h]
    exact ⟨find?_update_at inst.pk
      (fun l => { l with viewsCount := l.viewsCount + 1 })
      (fun _ => rfl) store, rfl⟩
  · intro m
    rfl
  · intro h
    unfold listingRetrieve
    rw [if_neg h]

/-- Witness for C6: a store holding the listing with views_count 5, an
in-memory instance whose views_count is stale (0); the stored value still
becomes 6, and one job is enqueued.  A non-published retrieve changes
nothing. -/
theorem listing_retrieve_views_witness :
    getListing (listingRetrieve
        [{ pk := 1, userId := 2, status := .published, featured := false,
           viewsCount := 5, inquiriesCount := 0, expiresAt := none }]
        { pk := 1, userId := 2, status := .published, featured := false,
          viewsCount := 0, inquiriesCount := 0, expiresAt := none }
        (some 7) "10.0.0.1" "agent").1 1
      = some { pk := 1, userId := 2, status := .published, featured := false,
               viewsCount := 6, inquiriesCount := 0, expiresAt := none } ∧
    listingRetrieve
        [{ pk := 1, userId := 2, status := .draft, featured := false,
           viewsCount := 5, inquiriesCount := 0, expiresAt := none }]
        { pk := 1, userId := 2, status := .draft, featured := false,
          viewsCount := 5, inquiriesCount := 0, expiresAt := none }
        (some 2) "10.0.0.1" "agent"
      = ([{ pk := 1, userId := 2, status := .draft, featured := false,
            viewsCount := 5, inquiriesCount := 0, expiresAt := none }], []) := by
  constructor
  · have h := (listing_retrieve_views
      [{ pk := 1, userId := 2, status := .published, featured := false,
         viewsCount := 5, inquiriesCount := 0, expiresAt := none }]
      { pk := 1, userId := 2, status := .published, featured := false,
        viewsCount := 0, inquiriesCount := 0, expiresAt := none }
      (some 7) "10.0.0.1" "agent").1 rfl
    rw [h.1]
    rfl
  · exact (listing_retrieve_views _ _ _ _ _).2.2 (by intro h; cases h)

/-! ### Expire-listings job (C8)

Embeds expire_listings_task (apps/listings/tasks.py lines 35-46): one bulk
UPDATE archiving the published listings whose expires_at is at or before
now, returning the number of rows updated. -/

/-- Row filter of the expiry queryset `expires_at__lte=now,
status=published` (tasks.py lines 42-43); a null expires_at never
matches. -/
def expireMatches (now : Nat) (l : Listing) : Bool :=
  (match l.expiresAt with
   | some t => decide (t ≤ now)
   | none => false) && l.status == .published

/-- Embeds expire_listings_task (tasks.py lines 35-46): the matching rows
are set to archived in one bulk update and the count of updated rows is
returned. -/
def expire_listings_task (store : ListingStore) (now : Nat) :
    ListingStore × Nat :=
  (store.map (fun l =>
      if expireMatches now l then { l with status := .archived } else l),
   store.countP (expireMatches now))

/-- C8 counterexample: the claim restricts the archived set to listings
whose expires_at is strictly in the past, but the job filter is
expires_at ≤ now; a published listing whose expires_at equals the current
instant is archived even though its expiry is not in the past. -/
theorem expire_listings_boundary_cex :
    getListing (expire_listings_task
        [{ pk := 1, userId := 1, status := .published, featured := false,
           viewsCount := 0, inquiriesCount := 0, expiresAt := some 100 }]
        100).1 1
      = some { pk := 1, userId := 1, status := .archived, featured := false,
               viewsCount := 0, inquiriesCount := 0, expiresAt := some 100 } ∧
    ¬ (100 : Nat) < 100 := by
  exact ⟨rfl, by omega⟩

/-- C8 (amended): one run of the job archives exactly the published
listings whose expires_at is at or before the current time (null expiry
never matches), leaving every other row unchanged, and returns the number
archived; an immediate second run archives zero listings and leaves the
store unchanged. -/
theorem expire_listings_idempotent (store : ListingStore) (now : Nat) :
    (expire_listings_task store now).1
      = store.map (fun l =>
          if expireMatches now l then { l with status := .archived } else l) ∧
    (expire_listings_task store now).2
      = store.countP (expireMatches now) ∧
    (expire_listings_task (expire_listings_task store now).1 now).2 = 0 ∧
    (expire_listings_task (expire_listings_task store now).1 now).1
      = (expire_listings_task store now).1 := by
  have hall : ∀ x ∈ (expire_listings_task store now).1,
      expireMatches now x = false := by
    intro x hx
    unfold expire_listings_task at hx
    rw [List.mem_map] at hx
    obtain ⟨y, hy, hfy⟩ := hx
    by_cases hc : expireMatches now y = true
    · rw [if_pos hc] at hfy
      rw [← hfy]
      unfold expireMatches
      simp
    · rw [if_neg hc] at hfy
      rw [← hfy]
      exact Bool.eq_false_iff.mpr hc
  refine ⟨rfl, rfl, ?_, ?_⟩
  · exact countP_eq_zero_of_all_false _ _ hall
  · exact map_id_of_all_false _ _ _ hall

/-! ### Inquiry creation and the inquiries_count counter (C9) -/

/-- Row of the inquiries table, restricted to the columns the claim
touches. -/
structure InquiryRec where
  id : Nat
  listingId : Nat
  fromUser : Nat
  toUser : Nat
deriving DecidableEq, Repr

/-- Embeds InquiryCreateSerializer.create (apps/inquiries/serializers.py
lines 131-173) for the modelled columns: one inquiry row is inserted with
to_user taken from the listing owner (and the notification job enqueued);
no statement of the function writes the listings table — in particular
Listing.increment_inquiries is never called anywhere on this path. -/
def inquiryCreate (listings : ListingStore) (inqs : List InquiryRec)
    (listing : Listing) (fromUser newId : Nat) :
    ListingStore × List InquiryRec :=
  (listings,
   inqs ++ [{ id := newId, listingId := listing.pk, fromUser := fromUser,
              toUser := listing.userId }])

/-- C9: creating an inquiry leaves the listings store — and so the target
listing's inquiries_count — completely unchanged, because the create path
never issues the increment; the second conjunct shows the unused helper
Listing.increment_inquiries would have performed the store-level relative
increment had it been called. -/
theorem inquiry_create_never_increments (listings : ListingStore)
    (inqs : List InquiryRec) (listing : Listing) (fromUser newId : Nat) :
    (inquiryCreate listings inqs listing fromUser newId).1 = listings ∧
    getListing (Listing.increment_inquiries listings listing.pk) listing.pk
      = (getListing listings listing.pk).map
          (fun l => { l with inquiriesCount := l.inquiriesCount + 1 }) := by
  exact ⟨rfl, find?_update_at listing.pk
    (fun l => { l with inquiriesCount := l.inquiriesCount + 1 })
    (fun _ => rfl) listings⟩

/-! ## Accounts: one-time passwords (C5)

Embeds OTPVerifySerializer (apps/accounts/serializers.py lines 117-144).
The OneTimePassword model class itself is referenced by the serializers and
views but its definition is absent from src/apps/accounts/models.py, so its
fields and the two methods the serializer calls are modelled from the spec
(marked below); the lookup, error, and mark-used flow is embedded from the
serializer source. -/

inductive Purpose
  | registration
  | login
deriving DecidableEq, Repr

inductive OTPError
  | invalidInput
  | expiredOrUsed
deriving DecidableEq, Repr

/-- Modelled from the spec: the OneTimePassword record is absent from
src/apps/accounts/models.py; spec section 3 gives its attributes as email,
6-digit code, purpose, expiry timestamp, used flag, created timestamp (an
id column is the implicit primary key). -/
structure OneTimePassword where
  id : Nat
  email : String
  code : String
  purpose : Purpose
  used : Bool
  expiresAt : Nat
  createdAt : Nat
deriving DecidableEq, Repr

namespace OneTimePassword

/-- Modelled from the spec: OneTimePassword.is_valid is called by
OTPVerifySerializer.validate but its body is absent from src; spec section
3 states a code is valid only if unused and not expired. -/
def is_valid (o : OneTimePassword) (now : Nat) : Bool :=
  !o.used && decide (now ≤ o.expiresAt)

/-- Modelled from the spec: OneTimePassword.mark_used is called by
OTPVerifySerializer.create but its body is absent from src; spec section 3
states the record is consumed (marked used) on successful verification. -/
def mark_used (o : OneTimePassword) : OneTimePassword :=
  { o with used := true }

end OneTimePassword

/-- Row filter of the verification lookup (serializers.py lines 128-130):
email__iexact, exact code, exact purpose. -/
def otpMatches (email code : String) (purpose : Purpose)
    (o : OneTimePassword) : Bool :=
  strLower o.email == strLower email && o.code == code
    && o.purpose == purpose

/-- Fold picking the record with the greatest created_at, later records
winning ties, starting from a first candidate. -/
def latestFrom (b : OneTimePassword) (l : List OneTimePassword) :
    OneTimePassword :=
  l.foldl (fun acc o => if acc.createdAt ≤ o.createdAt then o else acc) b

/-- Embeds `.latest("created_at")` on a queryset (serializers.py line 130):
the matching record with the greatest created_at, or DoesNotExist (none)
when the queryset is empty. -/
def latestBy : List OneTimePassword → Option OneTimePassword
  | [] => none
  | x :: xs => some (latestFrom x xs)

/-- Embeds the lookup of OTPVerifySerializer.validate (serializers.py
lines 122-130), with the normalization performed there: email lower+strip,
code strip. -/
def otpLookup (store : List OneTimePassword) (email code : String)
    (purpose : Purpose) : Option OneTimePassword :=
  latestBy (store.filter (otpMatches (strTrim (strLower email)) (strTrim code) purpose))

/-- Embeds the save path of OTPVerifySerializer.create (serializers.py
lines 141-144): mark_used persists the used flag on the row with this
id. -/
def markUsedInStore (store : List OneTimePassword) (id : Nat) :
    List OneTimePassword :=
  store.map (fun x => if x.id == id then x.mark_used else x)

/-- Embeds the full OTP verification attempt (OTPVerifySerializer.validate
followed by create, serializers.py lines 117-144): DoesNotExist raises
Invalid OTP code; a used or expired record raises expired-or-already-used;
otherwise the record is marked used and returned. -/
def otpVerify (store : List OneTimePassword) (now : Nat)
    (email code : String) (purpose : Purpose) :
    Except OTPError (List OneTimePassword × OneTimePassword) :=
  match otpLookup store email code purpose with
  | none => .error .invalidInput
  | some o =>
    if o.is_valid now then
      .ok (markUsedInStore store o.id, o.mark_used)
    else .error .expiredOrUsed

theorem latestFrom_mem (l : List OneTimePassword) :
    ∀ b : OneTimePassword, latestFrom b l = b ∨ latestFrom b l ∈ l := by
  induction l with
  | nil => intro b; exact Or.inl rfl
  | cons x xs ih =>
    intro b
    unfold latestFrom
    simp only [List.foldl_cons]
    by_cases h : b.createdAt ≤ x.createdAt
    · rw [if_pos h]
      rcases ih x with h1 | h1
      · exact Or.inr (by rw [latestFrom] at h1; rw [h1]; simp)
      · exact Or.inr (by rw [latestFrom] at h1; simp [h1])
    · rw [if_neg h]
      rcases ih b with h1 | h1
      · exact Or.inl (by rw [latestFrom] at h1; exact h1)
      · exact Or.inr (by rw [latestFrom] at h1; simp [h1])

theorem latestFrom_ge_init (l : List OneTimePassword) :
    ∀ b : OneTimePassword, b.createdAt ≤ (latestFrom b l).createdAt := by
  induction l with
  | nil => intro b; exact le_refl _
  | cons x xs ih =>
    intro b
    unfold latestFrom
    simp only [List.foldl_cons]
    by_cases h : b.createdAt ≤ x.createdAt
    · rw [if_pos h]
      exact le_trans h (ih x)
    · rw [if_neg h]
      exact ih b

theorem latestFrom_ge_mem (l : List OneTimePassword) :
    ∀ (b : OneTimePassword), ∀ y ∈ l,
      y.createdAt ≤ (latestFrom b l).createdAt := by
  induction l with
  | nil => intro b y hy; cases hy
  | cons x xs ih =>
    intro b y hy
    unfold latestFrom
    simp only [List.foldl_cons]
    rcases List.mem_cons.mp hy with hyx | hyxs
    · subst hyx
      by_cases h : b.createdAt ≤ y.createdAt
      · rw [if_pos h]
        exact latestFrom_ge_init xs y
      · rw [if_neg h]
        exact le_trans (le_of_not_le h) (latestFrom_ge_init xs b)
    · by_cases h : b.createdAt ≤ x.createdAt
      · rw [if_pos h]
        exact ih x y hyxs
      · rw [if_neg h]
        exact ih b y hyxs

theorem latest_max (l : List OneTimePassword) (o : OneTimePassword)
    (h : latestBy l = some o) :
    ∀ y ∈ l, y.createdAt ≤ o.createdAt := by
  cases l with
  | nil => cases h
  | cons x xs =>
    intro y hy
    have ho : latestFrom x xs = o := by
      unfold latestBy at h
      exact Option.some_injective _ h
    rcases List.mem_cons.mp hy with hyx | hyxs
    · subst hyx
      rw [← ho]
      exact latestFrom_ge_init xs y
    · rw [← ho]
      exact latestFrom_ge_mem xs x y hyxs

theorem latest_mem (l : List OneTimePassword) (o : OneTimePassword)
    (h : latestBy l = some o) : o ∈ l := by
  cases l with
  | nil => cases h
  | cons x xs =>
    have ho : latestFrom x xs = o := by
      unfold latestBy at h
      exact Option.some_injective _ h
    rcases latestFrom_mem xs x with h1 | h1
    · rw [ho] at h1
      rw [← h1]
      simp
    · rw [ho] at h1
      simp [h1]

theorem latestFrom_map (g : OneTimePassword → OneTimePassword)
    (hg : ∀ x, (g x).createdAt = x.createdAt) (l : List OneTimePassword) :
    ∀ b : OneTimePassword, latestFrom (g b) (l.map g) = g (latestFrom b l) := by
  induction l with
  | nil => intro b; rfl
  | cons x xs ih =>
    intro b
    unfold latestFrom
    simp only [List.map_cons, List.foldl_cons, hg]
    by_cases h : b.createdAt ≤ x.createdAt
    · rw [if_pos h, if_pos h]
      exact ih x
    · rw [if_neg h, if_neg h]
      exact ih b

theorem latestBy_map (g : OneTimePassword → OneTimePassword)
    (hg : ∀ x, (g x).createdAt = x.createdAt) (l : List OneTimePassword) :
    latestBy (l.map g) = (latestBy l).map g := by
  cases l with
  | nil => rfl
  | cons x xs =>
    simp only [List.map_cons, latestBy, Option.map_some]
    rw [latestFrom_map g hg xs x]
    rfl

theorem filter_map_comm {α : Type} (p : α → Bool) (g : α → α)
    (hp : ∀ a, p (g a) = p a) :
    ∀ l : List α, (l.map g).filter p = (l.filter p).map g := by
  intro l
  induction l with
  | nil => rfl
  | cons x xs ih =>
    simp only [List.map_cons, List.filter_cons, hp]
    by_cases h : p x = true
    · simp [h, ih]
    · have h' : p x = false := Bool.eq_false_iff.mpr h
      simp [h', ih]

theorem filter_eq_nil_of_all_false {α : Type} (p : α → Bool) :
    ∀ l : List α, (∀ a ∈ l, p a = false) → l.filter p = [] := by
  intro l
  induction l with
  | nil => intro _; rfl
  | cons x xs ih =>
    intro h
    rw [List.filter_cons, h x (by simp)]
    exact ih (fun a ha => h a (by simp [ha]))

/-- C5: the verification lookup picks a matching record of maximal
created_at; it fails with invalid-input when no record matches, with
expired-or-already-used when the selected record is used or past expiry;
and after a successful verification (which persists the used flag) a second
attempt with the same email, code, and purpose fails with
expired-or-already-used. -/
theorem otp_verify_single_use (store : List OneTimePassword)
    (now later : Nat) (email code : String) (purpose : Purpose) :
    ((∀ x ∈ store,
        otpMatches (strTrim (strLower email)) (strTrim code) purpose x = false) →
      otpVerify store now email code purpose = .error .invalidInput) ∧
    (∀ o, otpLookup store email code purpose = some o →
      otpMatches (strTrim (strLower email)) (strTrim code) purpose o = true ∧
      (∀ x ∈ store,
          otpMatches (strTrim (strLower email)) (strTrim code) purpose x = true →
          x.createdAt ≤ o.createdAt) ∧
      ((o.used = true ∨ o.expiresAt < now) →
        otpVerify store now email code purpose = .error .expiredOrUsed)) ∧
    (∀ store' o, otpVerify store now email code purpose = .ok (store', o) →
      otpVerify store' later email code purpose = .error .expiredOrUsed) := by
  refine ⟨?_, ?_, ?_⟩
  · intro hall
    unfold otpVerify
    have hnone : otpLookup store email code purpose = none := by
      unfold otpLookup
      rw [filter_eq_nil_of_all_false _ store hall]
      rfl
    rw [hnone]
  · intro o ho
    have hmem : o ∈ store.filter
        (otpMatches (strTrim (strLower email)) (strTrim code) purpose) := by
      unfold otpLookup at ho
      exact latest_mem _ o ho
    have hmatch := (List.mem_filter.mp hmem).2
    refine ⟨hmatch, ?_, ?_⟩
    · intro x hx hmx
      have hxf : x ∈ store.filter
          (otpMatches (strTrim (strLower email)) (strTrim code) purpose) :=
        List.mem_filter.mpr ⟨hx, hmx⟩
      unfold otpLookup at ho
      exact latest_max _ o ho x hxf
    · intro hcase
      have hvalid : o.is_valid now = false := by
        unfold OneTimePassword.is_valid
        rcases hcase with h | h
        · rw [h]
          rfl
        · have hd : decide (now ≤ o.expiresAt) = false := by
            simp only [decide_eq_false_iff_not]
            omega
          rw [hd]
          exact Bool.and_false _
      unfold otpVerify
      rw [ho]
      simp [hvalid]
  · intro store' o h
    cases hl : otpLookup store email code purpose with
    | none =>
      have hrun : otpVerify store now email code purpose
          = .error .invalidInput := by
        unfold otpVerify
        rw [hl]
      rw [hrun] at h
      cases h
    | some o0 =>
      by_cases hv : o0.is_valid now = true
      · have hrun : otpVerify store now email code purpose
            = .ok (markUsedInStore store o0.id, o0.mark_used) := by
          unfold otpVerify
          rw [hl]
          simp [hv]
        have heq : (Except.ok (store', o) :
            Except OTPError (List OneTimePassword × OneTimePassword))
            = .ok (markUsedInStore store o0.id, o0.mark_used) := by
          rw [← h, hrun]
        injection heq with heq2
        have hs : store' = markUsedInStore store o0.id :=
          congrArg Prod.fst heq2
        subst hs
        have hg1 : ∀ x : OneTimePassword,
            ((fun x => if x.id == o0.id then x.mark_used else x) x).createdAt
              = x.createdAt := by
          intro x
          by_cases hx : (x.id == o0.id) = true
          · simp [hx, OneTimePassword.mark_used]
          · simp [hx]
        have hg2 : ∀ x : OneTimePassword,
            otpMatches (strTrim (strLower email)) (strTrim code) purpose
                ((fun x => if x.id == o0.id then x.mark_used else x) x)
              = otpMatches (strTrim (strLower email)) (strTrim code) purpose x := by
          intro x
          by_cases hx : (x.id == o0.id) = true
          · simp [hx, OneTimePassword.mark_used, otpMatches]
          · simp [hx]
        unfold otpVerify otpLookup markUsedInStore
        rw [filter_map_comm _ _ hg2 store, latestBy_map _ hg1]
        have hl' : latestBy (store.filter
            (otpMatches (strTrim (strLower email)) (strTrim code) purpose)) = some o0 := by
          unfold otpLookup at hl
          exact hl
        rw [hl']
        simp [OneTimePassword.is_valid, OneTimePassword.mark_used]
      · have hrun : otpVerify store now email code purpose
            = .error .expiredOrUsed := by
          unfold otpVerify
          rw [hl]
          simp [hv]
        rw [hrun] at h
        cases h

/-- Witness for C5: a store with two matching records (different case in
the stored email, created at 1 and 5); verification selects the most recent
(id 2), succeeds, marks it used, and the second attempt fails. -/
theorem otp_verify_single_use_witness :
    otpVerify
      [{ id := 1, email := "a@x.com", code := "123456",
         purpose := .registration, used := false, expiresAt := 50,
         createdAt := 1 },
       { id := 2, email := "A@X.com", code := "123456",
         purpose := .registration, used := false, expiresAt := 100,
         createdAt := 5 }] 10 "a@x.com" "123456" .registration
      = .ok
        ([{ id := 1, email := "a@x.com", code := "123456",
            purpose := .registration, used := false, expiresAt := 50,
            createdAt := 1 },
          { id := 2, email := "A@X.com", code := "123456",
            purpose := .registration, used := true, expiresAt := 100,
            createdAt := 5 }],
         { id := 2, email := "A@X.com", code := "123456",
           purpose := .registration, used := true, expiresAt := 100,
           createdAt := 5 }) ∧
    otpVerify
      [{ id := 1, email := "a@x.com", code := "123456",
         purpose := .registration, used := false, expiresAt := 50,
         createdAt := 1 },
        { id := 2, email := "A@X.com", code := "123456",
          purpose := .registration, used := true, expiresAt := 100,
          createdAt := 5 }] 10 "a@x.com" "123456" .registration
      = .error .expiredOrUsed := by
  constructor
  · rfl
  · exact (otp_verify_single_use
      [{ id := 1, email := "a@x.com", code := "123456",
         purpose := .registration, used := false, expiresAt := 50,
         createdAt := 1 },
       { id := 2, email := "A@X.com", code := "123456",
         purpose := .registration, used := false, expiresAt := 100,
         createdAt := 5 }] 10 10 "a@x.com" "123456" .registration).2.2
      [{ id := 1, email := "a@x.com", code := "123456",
         purpose := .registration, used := false, expiresAt := 50,
         createdAt := 1 },
       { id := 2, email := "A@X.com", code := "123456",
         purpose := .registration, used := true, expiresAt := 100,
         createdAt := 5 }]
      { id := 2, email := "A@X.com", code := "123456",
        purpose := .registration, used := true, expiresAt := 100,
        createdAt := 5 } rfl

/-! ## Accounts: registration (C2)

Embeds UserRegistrationSerializer (apps/accounts/serializers.py lines
26-97) together with the role field it derives from the User model
(apps/accounts/models.py lines 44-64): the role column admits the five
choices buyer, seller, service_provider, admin, super_admin, and the
serializer exposes the role field with exactly those choices and no
further validation.  External capabilities are parameters: the set of
existing account emails (the uniqueness validator on the email column) and
the password strength policy (django validate_password). -/

inductive Role
  | buyer
  | seller
  | service_provider
  | admin
  | super_admin
deriving DecidableEq, Repr

structure RegistrationInput where
  username : String
  email : String
  fullName : String
  role : Role
  company : String
  phone : String
  location : String
  password : Option String
  passwordConfirm : Option String
deriving DecidableEq, Repr

inductive RegError
  | emailTaken
  | passwordConfirmMismatch
  | weakPassword
  | passwordRequired
deriving DecidableEq, Repr

/-- Account record produced by create_user (serializers.py lines 88-97 and
models.py lines 18-30); User.save lower-cases the stored email (models.py
lines 129-133). -/
structure NewUser where
  username : String
  email : String
  fullName : String
  role : Role
  company : String
  phone : String
  location : String
  hasPassword : Bool
deriving DecidableEq, Repr

/-- Embeds the OTP check of UserRegistrationSerializer.validate
(serializers.py lines 58-64): a used registration OTP for the same email
(iexact) that has not yet expired. -/
def otpVerifiedForRegistration (otps : List OneTimePassword) (now : Nat)
    (email : String) : Bool :=
  otps.any (fun o =>
    strLower o.email == strLower email && o.purpose == .registration
      && o.used && decide (now ≤ o.expiresAt))

/-- Embeds UserRegistrationSerializer validation and creation
(serializers.py lines 26-97): unique-email field validation, then the
validate method (password optional when an OTP was verified, otherwise
required, with confirmation match and strength policy), then create_user
with every validated field — the role field included, with no restriction
beyond membership in the model choices already enforced by the type. -/
def registerUser (existing : List String) (otps : List OneTimePassword)
    (strong : String → Bool) (now : Nat) (inp : RegistrationInput) :
    Except RegError NewUser :=
  if existing.any (fun e => e == inp.email) then .error .emailTaken
  else
    let otpValid := otpVerifiedForRegistration otps now inp.email
    let checkPassword : Except RegError Unit :=
      match inp.password with
      | some p =>
        if inp.passwordConfirm = some p then
          if strong p then .ok () else .error .weakPassword
        else .error .passwordConfirmMismatch
      | none =>
        if otpValid then .ok () else .error .passwordRequired
    match checkPassword with
    | .error e => .error e
    | .ok _ =>
      .ok { username := inp.username, email := strLower inp.email,
            fullName := inp.fullName, role := inp.role,
            company := inp.company, phone := inp.phone,
            location := inp.location,
            hasPassword := inp.password.isSome }

/-- C2: registration does not reject the admin or super_admin roles — no
validation step reads the role at all, so the outcome for any role equals
the outcome for any other role with only the created record's role field
differing; in particular a fully valid request carrying role=admin is
accepted and creates an admin account. -/
theorem registration_accepts_admin_role :
    (∀ (existing : List String) (otps : List OneTimePassword)
       (strong : String → Bool) (now : Nat) (inp : RegistrationInput)
       (r : Role),
       registerUser existing otps strong now { inp with role := r }
         = (registerUser existing otps strong now inp).map
             (fun u => { u with role := r })) ∧
    registerUser [] [] (fun p => decide (8 ≤ p.length)) 0
      { username := "eve", email := "Eve@X.com", fullName := "Eve A",
        role := .admin, company := "", phone := "", location := "",
        password := some "Str0ngPass", passwordConfirm := some "Str0ngPass" }
      = .ok { username := "eve", email := "eve@x.com", fullName := "Eve A",
              role := .admin, company := "", phone := "", location := "",
              hasPassword := true } := by
  constructor
  · intro existing otps strong now inp r
    obtain ⟨un, em, fn, ro, co, ph, lo, pw, pc⟩ := inp
    unfold registerUser
    by_cases h1 : (existing.any (fun e => e == em)) = true
    · simp [h1]
      rfl
    · have h1' : (existing.any (fun e => e == em)) = false :=
        Bool.eq_false_iff.mpr h1
      simp only [h1', Bool.false_eq_true, if_false]
      cases pw with
      | none =>
        by_cases hb : otpVerifiedForRegistration otps now em = true
        · simp [hb]
          rfl
        · have hb' : otpVerifiedForRegistration otps now em = false :=
            Bool.eq_false_iff.mpr hb
          simp [hb']
          rfl
      | some p =>
        by_cases h2 : pc = some p
        · by_cases h3 : strong p = true
          · simp [h2, h3]
            rfl
          · have h3' : strong p = false := Bool.eq_false_iff.mpr h3
            simp [h2, h3']
            rfl
        · simp [h2]
          rfl
  · rfl

/-! ## Accounts: profile endpoints (C10)

Embeds UserProfileViewSet (apps/accounts/views.py lines 142-154) with the
serializers it dispatches to (UserProfileSerializer and
UserProfileUpdateSerializer, apps/accounts/serializers.py lines 220-242). -/

structure UserRec where
  id : Nat
  username : String
  email : String
  fullName : String
  role : Role
  company : String
  phone : String
  location : String
  isActive : Bool
deriving DecidableEq, Repr

/-- An authenticated profile request: the requester resolved from the
bearer token, plus whatever identifier the URL may have carried (ignored by
the handler). -/
structure ProfileRequest where
  requester : UserRec
  suppliedPk : Option Nat
deriving DecidableEq, Repr

/-- Embeds UserProfileViewSet.get_object (views.py lines 153-154): the
target object is always the requesting user. -/
def profileGetObject (req : ProfileRequest) : UserRec :=
  req.requester

/-- Writable fields of UserProfileUpdateSerializer (serializers.py lines
235-242): full_name, company, phone, location (profile_image is carried by
the same rule and omitted here). -/
structure ProfileUpdateInput where
  fullName : Option String
  company : Option String
  phone : Option String
  location : Option String
deriving DecidableEq, Repr

def applyProfileUpdate (u : UserRec) (upd : ProfileUpdateInput) : UserRec :=
  { u with
    fullName := upd.fullName.getD u.fullName
    company := upd.company.getD u.company
    phone := upd.phone.getD u.phone
    location := upd.location.getD u.location }

/-- Embeds GET /auth/profile (RetrieveModelMixin over get_object): the
record returned is the resolved object. -/
def profileRetrieve (store : List UserRec) (req : ProfileRequest) :
    UserRec :=
  profileGetObject req

/-- Embeds PATCH and PUT /auth/profile (UpdateModelMixin over get_object):
the update is applied to the row whose id is the resolved object's id. -/
def profileUpdate (store : List UserRec) (req : ProfileRequest)
    (upd : ProfileUpdateInput) : List UserRec :=
  store.map (fun u =>
    if u.id == (profileGetObject req).id then applyProfileUpdate u upd
    else u)

/-- C10: the profile endpoints always target the requesting user, whatever
the requester's role and whatever identifier the request supplied: retrieve
returns the requester's record, and update leaves every stored record other
than the requester's untouched. -/
theorem profile_endpoints_self_only (store : List UserRec)
    (req : ProfileRequest) (upd : ProfileUpdateInput) :
    profileGetObject req = req.requester ∧
    profileRetrieve store req = req.requester ∧
    (profileUpdate store req upd).filter
        (fun u => !(u.id == req.requester.id))
      = store.filter (fun u => !(u.id == req.requester.id)) := by
  refine ⟨rfl, rfl, ?_⟩
  induction store with
  | nil => rfl
  | cons x xs ih =>
    by_cases hx : x.id = req.requester.id
    · simpa [profileUpdate, profileGetObject, List.filter_cons,
        applyProfileUpdate, hx] using ih
    · simpa [profileUpdate, profileGetObject, List.filter_cons, hx] using ih

/-! ## Global search (C7)

Embeds GlobalSearchView.get (apps/core/views.py lines 24-75). -/

structure CategoryRow where
  id : Nat
  name : String
  description : String
  isActive : Bool
deriving DecidableEq, Repr

/-- Minimal user projection the search endpoint renders (core/views.py
lines 64-73). -/
structure UserSearchResult where
  id : Nat
  username : String
  email : String
  company : String
  role : Role
deriving DecidableEq, Repr

/-- Listing match of the search queryset (core/views.py lines 36-42):
icontains over title, description, manufacturer, model, location. -/
def listingSearchMatch (q : String) (l : Listing) : Bool :=
  icontains l.title q || icontains l.description q
    || icontains l.manufacturer q || icontains l.model q
    || icontains l.location q

/-- The outcome of one GET /search request. -/
inductive SearchOutcome
  | badRequest (message : String)
  | nameError (message : String)
  | results (listings : List Listing) (categories : List CategoryRow)
      (users : List UserSearchResult)
deriving DecidableEq, Repr

/-- Embeds GlobalSearchView.get (core/views.py lines 24-75): an empty query
(after strip) is a 400; otherwise the listing queryset is built (Q-match,
then published-only, then first 10) — but serializing it executes the name
ListingSerializer, which is not bound in the module (the import on line 11
brings in ListingListSerializer only), so the handler raises NameError
before any result is returned. -/
def globalSearch (listings : List Listing) (categories : List CategoryRow)
    (users : List UserRec) (q : String) : SearchOutcome :=
  let query := strTrim q
  if query == "" then
    .badRequest "Please provide a search query (?q=)"
  else
    let _listingsQs :=
      ((listings.filter (listingSearchMatch query)).filter
        (fun l => l.status == .published)).take 10
    .nameError "name ListingSerializer is not defined"

/-- C7: the only request the search endpoint completes is the empty-query
rejection; every non-empty query fails with NameError (an unhandled 500),
because the handler references the undefined name ListingSerializer, so the
endpoint never returns the claimed listing/category/user results. -/
theorem global_search_crashes (listings : List Listing)
    (categories : List CategoryRow) (users : List UserRec) (q : String) :
    ((strTrim q == "") = true →
      globalSearch listings categories users q
        = .badRequest "Please provide a search query (?q=)") ∧
    ((strTrim q == "") = false →
      globalSearch listings categories users q
        = .nameError "name ListingSerializer is not defined") ∧
    (∀ L C U, ¬ globalSearch listings categories users q
        = .results L C U) := by
  refine ⟨?_, ?_, ?_⟩
  · intro h
    simp [globalSearch, h]
  · intro h
    simp [globalSearch, h]
  · intro L C U hres
    by_cases h : (strTrim q == "") = true
    · simp [globalSearch, h] at hres
    · simp [globalSearch, Bool.eq_false_iff.mpr h] at hres

/-- Witness for C7 at concrete queries: the empty query is rejected with
the 400 message and a non-empty query hits the NameError. -/
theorem global_search_crashes_witness :
    globalSearch [] [] [] "  "
      = .badRequest "Please provide a search query (?q=)" ∧
    globalSearch [] [] [] "excavator"
      = .nameError "name ListingSerializer is not defined" := by
  exact ⟨(global_search_crashes [] [] [] "  ").1 (by decide),
    (global_search_crashes [] [] [] "excavator").2.1 (by decide)⟩

end HarbourHub
